import Mathlib

/-!
Verification of the EduVate retrieval-augmented chat client.

The definitions below are a shallow embedding of the chat-related client
code (`frontend/src/pages/Chat.jsx`, `frontend/src/pages/Profile.jsx`
(the `TopicChat` component), `frontend/src/components/ChatMessage.jsx`,
`frontend/src/components/Citation.jsx`).  React state updates are
modelled as explicit state-passing; network calls are modelled by an
outcome parameter (success with the server's response, or failure).
Server-side behaviour that is not part of the sources (the session
manager and grounded generator) is modelled from the specification and
marked as such in the doc comments.
-/

namespace EduVate

/-- Role of a chat message (`message.role` in the client). -/
inductive Role
  | user
  | assistant
deriving DecidableEq, Repr

/-- A citation attached to an assistant message
(`{doc_id, page, snippet}` as consumed by `Citation.jsx`). -/
structure Citation where
  doc_id : Nat
  page : Nat
  snippet : String
deriving DecidableEq, Repr

/-- A chat message as displayed by the client (`ChatMessage.jsx`):
role, content text and (for assistant messages) a citation list.
A message with no `citations` field is modelled by an empty list. -/
structure Message where
  role : Role
  content : String
  citations : List Citation
deriving DecidableEq, Repr

/-- A retrieved chunk: document id, page number and text span
(data model of §3 of the specification; the client only ever sees the
derived citations). -/
structure Chunk where
  doc_id : Nat
  page : Nat
  text : String
deriving DecidableEq, Repr

/-- Document metadata as fetched by `Citation.jsx` via
`documentsAPI.getById` (`{id, title, status, ...}`). -/
structure DocInfo where
  id : Nat
  title : String
  status : String
deriving DecidableEq, Repr

/-- A chat session record as held in the client's session list.
The client reads its key as `session.session_id || session.id`. -/
structure Session where
  session_id : Option Nat
  id : Nat
  title : Option String
deriving DecidableEq, Repr

/-- `session.session_id || session.id` (`Chat.jsx`, `Profile.jsx`):
the effective session key used throughout both components. -/
def Session.effId (s : Session) : Nat :=
  match s.session_id with
  | some n => n
  | none => s.id

/-! ### Citation rendering (`ChatMessage.jsx`) -/

/-- `ChatMessage.jsx` (lines 184–210): the sources block renders
`message.citations.map(citation => <Citation citation={citation}/>)`,
and only when the message is not from the user, `message.citations` is
non-empty, and the `showSources` toggle is on.  The rendered citation
list is therefore `message.citations` itself under that condition and
empty otherwise. -/
def renderedCitations (message : Message) (showSources : Bool) : List Citation :=
  if message.role ≠ Role.user ∧ message.citations ≠ [] ∧ showSources then
    message.citations
  else
    []

/-- Modelled from the spec: the Grounded Generator's citation
resolution (§4.4, §9) is not under `src/` (only the client is).  Per
the spec, the model output's citation markers are resolved against the
retrieved-chunk set, and "any marker that does not resolve to a
retrieved chunk is dropped rather than surfaced".  A marker is a
claimed (document id, page) pair. -/
def resolveMarkers (retrieved : List Chunk) (markers : List (Nat × Nat)) :
    List Citation :=
  markers.filterMap fun m =>
    (retrieved.find? fun ch => ch.doc_id == m.1 && ch.page == m.2).map fun ch =>
      { doc_id := ch.doc_id, page := ch.page, snippet := ch.text }

/-! ### Send-message handlers (`Chat.jsx`, `Profile.jsx`) -/

/-- Outcome of the `chatAPI.sendMessage` network call: success carries
the assistant message returned by the server. -/
inductive SendOutcome
  | success (assistantMsg : Message)
  | failure
deriving DecidableEq, Repr

/-- The component state touched by `handleSendMessage`:
`messages`, `inputMessage` and the `loading` flag. -/
structure SendState where
  messages : List Message
  inputMessage : String
  loading : Bool
deriving DecidableEq, Repr

/-- JavaScript whitespace as used by `String.prototype.trim` and the
`\s` regex class, restricted to the ASCII space characters. -/
def isSpace (c : Char) : Bool :=
  c = ' ' || c = '\t' || c = '\n' || c = '\r' || c = '\x0b' || c = '\x0c'

/-- `trim()` on a character list: drop whitespace at both ends. -/
def jsTrimL (cs : List Char) : List Char :=
  ((cs.dropWhile isSpace).reverse.dropWhile isSpace).reverse

/-- JavaScript `s.trim()`. -/
def jsTrim (s : String) : String :=
  String.mk (jsTrimL s.data)

/-- `Chat.jsx` `handleSendMessage` (lines 131–159), as a function of
the prior state, the selected session and the network outcome.  It
returns the final state together with the number of requests issued.
Guard: `if (!inputMessage.trim() || !selectedSession) return;`.
Otherwise the trimmed input is appended optimistically as a user
message, and on success `response.data.message` is appended after it;
on failure only a toast is raised, so the user message stays. -/
def chatHandleSendMessage (st : SendState) (selectedSession : Option Session)
    (outcome : SendOutcome) : SendState × Nat :=
  if jsTrim st.inputMessage = "" ∨ selectedSession = none then
    (st, 0)
  else
    let userMsg : Message := ⟨Role.user, jsTrim st.inputMessage, []⟩
    match outcome with
    | SendOutcome.success m =>
        (⟨st.messages ++ [userMsg, m], "", false⟩, 1)
    | SendOutcome.failure =>
        (⟨st.messages ++ [userMsg], "", false⟩, 1)

/-- `Profile.jsx` `TopicChat.handleSendMessage` (lines 596–635).  Same
guard and optimistic append; on success the component refetches the
message page (`chatAPI.getMessages(sessionId)`, i.e. the last 50
messages of the server history) and displays that; on failure it runs
`setMessages(messages)` with the pre-call closure value, which removes
the optimistic user message.  `refetched` stands for the message page
returned by the success-path refetch. -/
def topicHandleSendMessage (st : SendState) (selectedSession : Option Session)
    (outcome : SendOutcome) (refetched : List Message) : SendState × Nat :=
  if jsTrim st.inputMessage = "" ∨ selectedSession = none then
    (st, 0)
  else
    match outcome with
    | SendOutcome.success _ =>
        (⟨refetched, "", false⟩, 1)
    | SendOutcome.failure =>
        (⟨st.messages, "", false⟩, 1)

/-! ### Session deletion (`Chat.jsx` / `Profile.jsx` `confirmDelete`) -/

/-- The component state touched by `confirmDelete`. -/
structure ChatState where
  sessions : List Session
  selectedSession : Option Session
  messages : List Message
deriving DecidableEq, Repr

/-- `confirmDelete` (identical logic in `Chat.jsx` lines 101–129 and
`Profile.jsx` lines 566–594): snapshot the previous state, optimistically
filter the session out (clearing selection and messages when the deleted
session is the selected one), then call `chatAPI.deleteSession`; on
failure roll every snapshot back. -/
def confirmDelete (st : ChatState) (sessionIdToDelete : Nat)
    (success : Bool) : ChatState :=
  let matchesSelected : Bool :=
    match st.selectedSession with
    | some sel => sel.effId == sessionIdToDelete
    | none => false
  let optimistic : ChatState :=
    { sessions := st.sessions.filter fun s => s.effId ≠ sessionIdToDelete,
      selectedSession := if matchesSelected then none else st.selectedSession,
      messages := if matchesSelected then [] else st.messages }
  if success then optimistic else st

/-! ### Session creation (`Profile.jsx` `TopicChat.handleCreateSession`) -/

/-- The component state touched by `handleCreateSession`. -/
structure TopicChatState where
  documents : List DocInfo
  sessions : List Session
  selectedSession : Option Session
  messages : List Message
deriving DecidableEq, Repr

/-- `Profile.jsx` `TopicChat.handleCreateSession` (lines 538–554):
if `documents.length === 0` it only raises a toast and returns — no
request is issued; otherwise it posts a session-creation request and on
success prepends the new session, selects it and clears the messages.
Returns the new state and the number of requests issued. -/
def handleCreateSession (st : TopicChatState) (response : Option Session) :
    TopicChatState × Nat :=
  if st.documents.length = 0 then
    (st, 0)
  else
    match response with
    | some newSession =>
        ({ st with
            sessions := newSession :: st.sessions,
            selectedSession := some newSession,
            messages := [] }, 1)
    | none => (st, 1)

/-- Modelled from the spec: server-side `create_session(scope)` is not
under `src/` (only the client is).  Per §4.5 and the §8 scenario, it
"fails if the scope has zero documents" with a `ScopeError` and "no
session row exists afterward"; the session store is returned unchanged
on failure. -/
def create_session (scope : List DocInfo) (store : List Session)
    (fresh : Session) : Except String Session × List Session :=
  if (scope.filter fun d => d.status = "ready").isEmpty then
    (Except.error "ScopeError", store)
  else
    (Except.ok fresh, store ++ [fresh])

/-! ### Message pagination (`Profile.jsx` `TopicChat`) -/

/-- Modelled from the spec: server-side
`list_messages(session_id, limit, offset)` is not under `src/`.  Per
§4.5 (and the model fixed by the client's use of it), the server holds
a fixed chronological message list and returns the window of up to
`limit` consecutive messages at distance `offset` from the end,
oldest-first within the window, together with the total count. -/
def listMessages (history : List Message) (limit offset : Nat) :
    List Message × Nat :=
  ((((history.reverse).drop offset).take limit).reverse, history.length)

/-- The page part of `listMessages`. -/
def fetchPage (history : List Message) (limit offset : Nat) : List Message :=
  (listMessages history limit offset).1

/-- The load-older loop of `Profile.jsx` `TopicChat` (`fetchMessages`
lines 508–525 and `handleLoadMore` lines 527–536), run to completion:
each round requests `fetchPage` at `offset = loaded.length` and
prepends the result; it continues while
`offset + newMessages.length < total`, which after a prepend is
exactly `loaded.length < total`.  `fuel` bounds the rounds (the
concrete loop does at most one round per user click). -/
def loadLoop (history : List Message) (limit : Nat) :
    Nat → List Message → List Message
  | 0, loaded => loaded
  | Nat.succ fuel, loaded =>
      if loaded.length < history.length then
        loadLoop history limit fuel
          (fetchPage history limit loaded.length ++ loaded)
      else
        loaded

/-- Loading a session's history in `TopicChat`: the initial
`fetchMessages(sessionId)` call fetches the page at offset 0, then the
load-older loop runs until no more history remains.  `history.length`
rounds of fuel always suffice. -/
def loadAll (history : List Message) (limit : Nat) : List Message :=
  loadLoop history limit history.length (fetchPage history limit 0)

/-! ### Session title cleaning (`Chat.jsx` `cleanSessionTitle`) -/

/-- Case-insensitive keyword match at the head of a character list:
`matchKeyword kw cs` returns the remainder of `cs` after `kw` when the
head of `cs`, lowercased, spells `kw`.  This is the
`(judul|title)` part of the regex in `cleanSessionTitle`
(`Chat.jsx` lines 23–27). -/
def matchKeyword : List Char → List Char → Option (List Char)
  | [], cs => some cs
  | _ :: _, [] => none
  | k :: ks, c :: cs => if c.toLower = k then matchKeyword ks cs else none

/-- The `\s*[:-]\s*` part of the regex: skip whitespace, require one
`':'` or `'-'`, skip whitespace, return the remainder. -/
def matchSep (cs : List Char) : Option (List Char) :=
  match cs.dropWhile isSpace with
  | [] => none
  | c :: rest =>
      if c = ':' ∨ c = '-' then some (rest.dropWhile isSpace) else none

/-- `title.replace(/^(judul|title)\s*[:-]\s*/i, '')`: if the string
starts (case-insensitively) with `judul` or `title` followed by
optional whitespace, a `':'` or `'-'`, and optional whitespace, that
leading match is removed once; otherwise the string is unchanged. -/
def stripTitleMarker (s : String) : String :=
  match (matchKeyword ['j', 'u', 'd', 'u', 'l'] s.data).bind matchSep with
  | some rest => String.mk rest
  | none =>
      match (matchKeyword ['t', 'i', 't', 'l', 'e'] s.data).bind matchSep with
      | some rest => String.mk rest
      | none => s

/-- Whether the title-marker regex matches at the head of `s`
(used to state the "no such marker" case). -/
def hasTitleMarker (s : String) : Bool :=
  ((matchKeyword ['j', 'u', 'd', 'u', 'l'] s.data).bind matchSep).isSome ||
    ((matchKeyword ['t', 'i', 't', 'l', 'e'] s.data).bind matchSep).isSome

/-- `Chat.jsx` `cleanSessionTitle` (lines 23–27): a falsy title
(absent or empty) gives `"Untitled chat"`; otherwise the marker is
stripped and the result trimmed; an empty cleaned result again gives
`"Untitled chat"`. -/
def cleanSessionTitle : Option String → String
  | none => "Untitled chat"
  | some t =>
      if t = "" then "Untitled chat"
      else
        let cleaned := jsTrim (stripTitleMarker t)
        if cleaned = "" then "Untitled chat" else cleaned

/-! ### Citation display (`Citation.jsx`) -/

/-- Props passed to `PDFViewer` when a citation is opened. -/
structure ViewerProps where
  initialPage : Nat
  title : String
deriving DecidableEq, Repr

/-- What `Citation.jsx` renders for one citation: the page label and
snippet shown on the button, whether the button is disabled, and the
viewer (present only while `showPDF` is set and the document record is
loaded). -/
structure CitationView where
  pageLabel : Nat
  snippet : String
  disabled : Bool
  viewer : Option ViewerProps
deriving DecidableEq, Repr

/-- `Citation.jsx` `handleClick` (lines 30–34): sets `showPDF` only
when the fetched document is present with status `"ready"`; returns
the new value of `showPDF`. -/
def citationHandleClick (doc : Option DocInfo) (showPDF : Bool) : Bool :=
  match doc with
  | some d => if d.status = "ready" then true else showPDF
  | none => showPDF

/-- `Citation.jsx` button `disabled` attribute (line 42):
`!document || document.status !== 'ready'`. -/
def citationButtonDisabled (doc : Option DocInfo) : Bool :=
  match doc with
  | some d => d.status != "ready"
  | none => true

/-- `Citation.jsx` render (lines 38–85): the page label is
`citation.page`, the snippet is `citation.snippet`, and the viewer is
mounted iff `showPDF && document`, with `initialPage = citation.page`. -/
def citationRender (c : Citation) (doc : Option DocInfo)
    (showPDF : Bool) : CitationView :=
  { pageLabel := c.page,
    snippet := c.snippet,
    disabled := citationButtonDisabled doc,
    viewer :=
      match doc with
      | some d =>
          if showPDF then some { initialPage := c.page, title := d.title }
          else none
      | none => none }

/-! ### Inline markdown segments (`ChatMessage.jsx` `parseInlineSegments`) -/

/-- A segment produced by `parseInlineSegments`
(`{type: 'text' | 'bold' | 'italic', value}`). -/
inductive Seg
  | text (v : String)
  | bold (v : String)
  | italic (v : String)
deriving DecidableEq, Repr

/-- The `value` field of a segment. -/
def segValue : Seg → String
  | Seg.text v => v
  | Seg.bold v => v
  | Seg.italic v => v

/-- A segment rendered back to source characters, bold as `**v**` and
italic as `*v*`; text segments are verbatim. -/
def segRenderL : Seg → List Char
  | Seg.text v => v.data
  | Seg.bold v => '*' :: '*' :: (v.data ++ ['*', '*'])
  | Seg.italic v => '*' :: (v.data ++ ['*'])

/-- All segments rendered back to source characters. -/
def renderSegs (segs : List Seg) : List Char :=
  (segs.map segRenderL).flatten

/-- The bold alternative `\*\*([^*]+)\*\*` of the regex in
`parseInlineSegments` (`ChatMessage.jsx` line 7), attempted at the
current position: two literal asterisks, a maximal nonempty run of
non-asterisks (the greedy `[^*]+`), then two literal asterisks.
Returns the captured content and the remainder after the match. -/
def matchBold (cs : List Char) : Option (List Char × List Char) :=
  match cs with
  | c1 :: c2 :: rest =>
      if c1 = '*' ∧ c2 = '*' then
        match rest.takeWhile (· != '*'), rest.dropWhile (· != '*') with
        | c :: cs', d1 :: d2 :: rest2 =>
            if d1 = '*' ∧ d2 = '*' then some (c :: cs', rest2) else none
        | _, _ => none
      else none
  | _ => none

/-- The italic alternative `\*([^*]+)\*`, attempted at the current
position: one asterisk, a maximal nonempty run of non-asterisks, then
one asterisk. -/
def matchItalic (cs : List Char) : Option (List Char × List Char) :=
  match cs with
  | c1 :: rest =>
      if c1 = '*' then
        match rest.takeWhile (· != '*'), rest.dropWhile (· != '*') with
        | c :: cs', d1 :: rest2 =>
            if d1 = '*' then some (c :: cs', rest2) else none
        | _, _ => none
      else none
  | [] => none

/-- One attempt of the combined regex
`(\*\*([^*]+)\*\*|\*([^*]+)\*)` at the current position; the bold
alternative is tried first, as in the regex. -/
def matchAt (cs : List Char) : Option (Seg × List Char) :=
  match matchBold cs with
  | some (content, rest2) => some (Seg.bold (String.mk content), rest2)
  | none =>
      match matchItalic cs with
      | some (content, rest2) => some (Seg.italic (String.mk content), rest2)
      | none => none

theorem matchBold_eq (cs content rest2 : List Char)
    (h : matchBold cs = some (content, rest2)) :
    cs = '*' :: '*' :: (content ++ '*' :: '*' :: rest2) := by
  unfold matchBold at h
  split at h
  · rename_i c1 c2 rest
    split at h
    · rename_i hstar
      split at h
      · rename_i heq c cs' d1 d2 r2 htake hdrop
        split at h
        · rename_i hstar2
          obtain ⟨rfl, rfl⟩ := Prod.mk.injEq .. ▸ Option.some.injEq .. ▸ h
          have hjoin : rest.takeWhile (· != '*') ++ rest.dropWhile (· != '*') = rest :=
            List.takeWhile_append_dropWhile ..
          rw [htake, hdrop] at hjoin
          obtain ⟨rfl, rfl⟩ := hstar
          obtain ⟨rfl, rfl⟩ := hstar2
          rw [← hjoin]
        · exact absurd h (by simp)
      · exact absurd h (by simp)
    · exact absurd h (by simp)
  · exact absurd h (by simp)

theorem matchItalic_eq (cs content rest2 : List Char)
    (h : matchItalic cs = some (content, rest2)) :
    cs = '*' :: (content ++ '*' :: rest2) := by
  unfold matchItalic at h
  split at h
  · rename_i c1 rest
    split at h
    · rename_i hstar
      split at h
      · rename_i heq c cs' d1 r2 htake hdrop
        split at h
        · rename_i hstar2
          obtain ⟨rfl, rfl⟩ := Prod.mk.injEq .. ▸ Option.some.injEq .. ▸ h
          have hjoin : rest.takeWhile (· != '*') ++ rest.dropWhile (· != '*') = rest :=
            List.takeWhile_append_dropWhile ..
          rw [htake, hdrop] at hjoin
          subst hstar
          subst hstar2
          rw [← hjoin]
        · exact absurd h (by simp)
      · exact absurd h (by simp)
    · exact absurd h (by simp)
  · exact absurd h (by simp)

theorem matchAt_render (cs : List Char) (seg : Seg) (rest2 : List Char)
    (h : matchAt cs = some (seg, rest2)) :
    segRenderL seg ++ rest2 = cs ∧ rest2.length < cs.length := by
  unfold matchAt at h
  split at h
  · rename_i content r2 hbold
    simp only [Option.some.injEq, Prod.mk.injEq] at h
    obtain ⟨rfl, rfl⟩ := h
    have hcs := matchBold_eq _ _ _ hbold
    subst hcs
    constructor
    · simp [segRenderL]
    · simp only [List.length_cons, List.length_append]
      omega
  · split at h
    · rename_i content r2 hital
      simp only [Option.some.injEq, Prod.mk.injEq] at h
      obtain ⟨rfl, rfl⟩ := h
      have hcs := matchItalic_eq _ _ _ hital
      subst hcs
      constructor
      · simp [segRenderL]
      · simp only [List.length_cons, List.length_append]
        omega
    · exact absurd h (by simp)

/-- The `while ((match = regex.exec(text)) !== null)` loop of
`parseInlineSegments` (`ChatMessage.jsx` lines 12–30): scan left to
right; at each position try the combined regex; on a match, flush the
pending plain text (`text.slice(lastIndex, match.index)`), emit the
bold/italic segment and continue after the match; otherwise carry the
current character into the pending text (`acc`, kept reversed).  At
the end the pending text is flushed iff nonempty
(`if (lastIndex < text.length)`). -/
def scanSegs : List Char → List Char → List Seg
  | [], acc =>
      if acc = [] then [] else [Seg.text (String.mk acc.reverse)]
  | c :: rest, acc =>
      match h : matchAt (c :: rest) with
      | some (seg, rest2) =>
          (if acc = [] then [] else [Seg.text (String.mk acc.reverse)]) ++
            seg :: scanSegs rest2 []
      | none => scanSegs rest (c :: acc)
termination_by cs _ => cs.length
decreasing_by
  · exact (matchAt_render _ _ _ h).2
  · simp

/-- `ChatMessage.jsx` `parseInlineSegments` (lines 5–33). -/
def parseInlineSegments (s : String) : List Seg :=
  scanSegs s.data []

theorem segRenderL_text (v : String) : segRenderL (Seg.text v) = v.data := rfl

theorem renderSegs_nil : renderSegs [] = [] := rfl

theorem renderSegs_cons (s : Seg) (l : List Seg) :
    renderSegs (s :: l) = segRenderL s ++ renderSegs l := by
  simp [renderSegs]

theorem renderSegs_append (a b : List Seg) :
    renderSegs (a ++ b) = renderSegs a ++ renderSegs b := by
  simp [renderSegs]

theorem renderSegs_scanSegs (cs acc : List Char) :
    renderSegs (scanSegs cs acc) = acc.reverse ++ cs := by
  induction cs, acc using scanSegs.induct with
  | case1 => simp [scanSegs, renderSegs]
  | case2 acc hacc =>
      simp [scanSegs, hacc, renderSegs, segRenderL]
  | case3 c rest acc seg rest2 hm ih =>
      have hr := (matchAt_render _ _ _ hm).1
      rw [scanSegs.eq_2]
      split
      · rename_i seg' rest2' hm'
        rw [hm] at hm'
        simp only [Option.some.injEq, Prod.mk.injEq] at hm'
        obtain ⟨rfl, rfl⟩ := hm'
        rw [renderSegs_append, renderSegs_cons, ih]
        by_cases hacc : acc = []
        · subst hacc
          simp [renderSegs_nil, hr]
        · rw [if_neg hacc, renderSegs_cons, renderSegs_nil, segRenderL_text]
          simp [← hr, List.append_assoc]
      · rename_i hm'
        rw [hm] at hm'
        exact absurd hm' (by simp)
  | case4 c rest acc hm ih =>
      rw [scanSegs.eq_2]
      split
      · rename_i seg' rest2' hm'
        rw [hm] at hm'
        exact absurd hm' (by simp)
      · rw [ih]
        simp

theorem matchAt_none_of_head (c : Char) (rest : List Char) (hc : c ≠ '*') :
    matchAt (c :: rest) = none := by
  unfold matchAt matchBold matchItalic
  cases rest with
  | nil => simp [hc]
  | cons d tl => simp [hc]

theorem scanSegs_no_star (cs : List Char) (h : ∀ c ∈ cs, c ≠ '*') :
    ∀ acc : List Char,
      scanSegs cs acc =
        if acc.reverse ++ cs = [] then []
        else [Seg.text (String.mk (acc.reverse ++ cs))] := by
  induction cs with
  | nil => intro acc; simp [scanSegs]
  | cons c rest ih =>
      intro acc
      rw [scanSegs.eq_2]
      split
      · rename_i seg' rest2' hm'
        rw [matchAt_none_of_head c rest (h c (by simp))] at hm'
        exact absurd hm' (by simp)
      · rw [ih (fun d hd => h d (by simp [hd])) (c :: acc)]
        simp

/-! ### Pagination lemmas -/

theorem drop_take_drop {α : Type} (l : List α) (k j : Nat) (hk : k ≤ l.length)
    (hj : j ≤ k) : (l.take k).drop j ++ l.drop k = l.drop j := by
  conv_rhs => rw [← List.take_append_drop k l]
  rw [List.drop_append_of_le_length (by rw [List.length_take]; omega)]

theorem fetchPage_eq (history : List Message) (limit offset : Nat) :
    fetchPage history limit offset =
      (history.take (history.length - offset)).drop
        (history.length - offset - limit) := by
  simp only [fetchPage, listMessages]
  rw [List.drop_reverse, List.take_reverse, List.reverse_reverse,
    List.length_take, Nat.min_eq_left (by omega)]

theorem loadLoop_eq (history : List Message) (limit : Nat) (hlimit : 1 ≤ limit) :
    ∀ (fuel : Nat) (loaded : List Message),
      loaded = history.drop (history.length - loaded.length) →
      loaded.length ≤ history.length →
      history.length - loaded.length ≤ fuel →
      loadLoop history limit fuel loaded = history := by
  intro fuel
  induction fuel with
  | zero =>
      intro loaded h1 h2 h3
      rw [loadLoop]
      have h0 : history.length - loaded.length = 0 := by omega
      rw [h0] at h1
      simpa using h1
  | succ fuel ih =>
      intro loaded h1 h2 h3
      rw [loadLoop]
      by_cases hlt : loaded.length < history.length
      · rw [if_pos hlt]
        have hfp : fetchPage history limit loaded.length ++ loaded =
            history.drop (history.length - loaded.length - limit) := by
          calc fetchPage history limit loaded.length ++ loaded
              = (history.take (history.length - loaded.length)).drop
                  (history.length - loaded.length - limit) ++
                  history.drop (history.length - loaded.length) := by
                rw [fetchPage_eq, ← h1]
            _ = history.drop (history.length - loaded.length - limit) :=
                drop_take_drop _ _ _ (by omega) (by omega)
        rw [hfp]
        have hlen' : (history.drop
            (history.length - loaded.length - limit)).length =
            history.length - (history.length - loaded.length - limit) := by
          rw [List.length_drop]
        apply ih
        · rw [hlen']
          congr 1
          omega
        · rw [hlen']
          omega
        · rw [hlen']
          omega
      · rw [if_neg hlt]
        have h0 : history.length - loaded.length = 0 := by omega
        rw [h0] at h1
        simpa using h1

/-- The full load-older loop reconstructs the complete history for any
positive page size (`TopicChat` uses 50). -/
theorem loadAll_eq (history : List Message) (limit : Nat)
    (hlimit : 1 ≤ limit) : loadAll history limit = history := by
  unfold loadAll
  have hfp0 : fetchPage history limit 0 =
      history.drop (history.length - limit) := by
    rw [fetchPage_eq]
    simp
  rw [hfp0]
  have hlen : (history.drop (history.length - limit)).length =
      history.length - (history.length - limit) := by
    rw [List.length_drop]
  apply loadLoop_eq history limit hlimit
  · rw [hlen]
    congr 1
    omega
  · rw [hlen]
    omega
  · rw [hlen]
    omega

/-! ### Title-cleaning lemmas -/

theorem data_mk (l : List Char) : (String.mk l).data = l := rfl

theorem matchKeyword_of_map (kw : List Char) :
    ∀ (w rest : List Char), w.map Char.toLower = kw →
      matchKeyword kw (w ++ rest) = some rest := by
  induction kw with
  | nil =>
      intro w rest h
      have hw : w = [] := by simpa using h
      subst hw
      simp [matchKeyword]
  | cons k ks ih =>
      intro w rest h
      cases w with
      | nil => simp at h
      | cons c cs =>
          simp only [List.map_cons, List.cons.injEq] at h
          obtain ⟨h1, h2⟩ := h
          simp [matchKeyword, h1, ih cs rest h2]

theorem matchKeyword_ne_first (k : Char) (ks : List Char) (c : Char)
    (cs : List Char) (h : c.toLower ≠ k) :
    matchKeyword (k :: ks) (c :: cs) = none := by
  simp [matchKeyword, h]

theorem dropWhile_isSpace_append (ws rest : List Char)
    (h : ∀ c ∈ ws, isSpace c = true) :
    (ws ++ rest).dropWhile isSpace = rest.dropWhile isSpace := by
  induction ws with
  | nil => simp
  | cons c cs ih =>
      simp [List.dropWhile_cons, h c (by simp),
        ih fun d hd => h d (by simp [hd])]

theorem matchSep_eq (ws1 : List Char) (sep : Char) (tail : List Char)
    (hws : ∀ c ∈ ws1, isSpace c = true)
    (hsep : sep = ':' ∨ sep = '-') :
    matchSep (ws1 ++ sep :: tail) = some (tail.dropWhile isSpace) := by
  unfold matchSep
  rw [dropWhile_isSpace_append ws1 (sep :: tail) hws]
  have hnspace : isSpace sep = false := by rcases hsep with rfl | rfl <;> rfl
  rw [List.dropWhile_cons, hnspace]
  simp [hsep]

theorem stripTitleMarker_keyword (w ws1 : List Char) (sep : Char)
    (tail : List Char)
    (hw : w.map Char.toLower = ['j', 'u', 'd', 'u', 'l'] ∨
      w.map Char.toLower = ['t', 'i', 't', 'l', 'e'])
    (hws : ∀ c ∈ ws1, isSpace c = true)
    (hsep : sep = ':' ∨ sep = '-') :
    stripTitleMarker (String.mk (w ++ (ws1 ++ sep :: tail))) =
      String.mk (tail.dropWhile isSpace) := by
  have hsepEq := matchSep_eq ws1 sep tail hws hsep
  rcases hw with hw | hw
  · have hk := matchKeyword_of_map _ w (ws1 ++ sep :: tail) hw
    unfold stripTitleMarker
    simp [data_mk, hk, hsepEq]
  · have hk := matchKeyword_of_map _ w (ws1 ++ sep :: tail) hw
    have hj : matchKeyword ['j', 'u', 'd', 'u', 'l']
        (w ++ (ws1 ++ sep :: tail)) = none := by
      cases w with
      | nil => simp at hw
      | cons c cs =>
          apply matchKeyword_ne_first
          simp only [List.map_cons, List.cons.injEq] at hw
          rw [hw.1]
          decide
    unfold stripTitleMarker
    simp [data_mk, hk, hj, hsepEq]

theorem jsTrimL_dropWhile (l : List Char) :
    jsTrimL (l.dropWhile isSpace) = jsTrimL l := by
  unfold jsTrimL
  rw [List.dropWhile_idempotent]

theorem cleanSessionTitle_marker (w ws1 : List Char) (sep : Char)
    (tail : List Char)
    (hw : w.map Char.toLower = ['j', 'u', 'd', 'u', 'l'] ∨
      w.map Char.toLower = ['t', 'i', 't', 'l', 'e'])
    (hws : ∀ c ∈ ws1, isSpace c = true)
    (hsep : sep = ':' ∨ sep = '-') :
    cleanSessionTitle (some (String.mk (w ++ (ws1 ++ sep :: tail)))) =
      if jsTrimL tail = [] then "Untitled chat"
      else String.mk (jsTrimL tail) := by
  have hstrip := stripTitleMarker_keyword w ws1 sep tail hw hws hsep
  have hne : String.mk (w ++ (ws1 ++ sep :: tail)) ≠ "" := by
    intro h
    have hdata : w ++ (ws1 ++ sep :: tail) = ([] : List Char) :=
      congrArg String.data h
    rcases hw with hw | hw <;> (cases w <;> simp_all)
  rw [cleanSessionTitle.eq_2, if_neg hne, hstrip]
  show (if jsTrim (String.mk (tail.dropWhile isSpace)) = "" then _ else _) = _
  unfold jsTrim
  rw [data_mk, jsTrimL_dropWhile]
  by_cases hT : jsTrimL tail = []
  · have heq2 : String.mk (jsTrimL tail) = "" := by rw [hT]
    rw [if_pos heq2, if_pos hT]
  · have hne2 : String.mk (jsTrimL tail) ≠ "" := by
      intro hcontra
      exact hT (congrArg String.data hcontra)
    rw [if_neg hne2, if_neg hT]

theorem cleanSessionTitle_no_marker (s : String)
    (h : hasTitleMarker s = false) (hne : jsTrim s ≠ "") :
    cleanSessionTitle (some s) = jsTrim s := by
  have hstrip : stripTitleMarker s = s := by
    unfold hasTitleMarker at h
    rw [Bool.or_eq_false_iff] at h
    obtain ⟨h1, h2⟩ := h
    have h1' : (matchKeyword ['j', 'u', 'd', 'u', 'l'] s.data).bind matchSep =
        none := by
      cases hX : (matchKeyword ['j', 'u', 'd', 'u', 'l'] s.data).bind matchSep <;>
        simp_all
    have h2' : (matchKeyword ['t', 'i', 't', 'l', 'e'] s.data).bind matchSep =
        none := by
      cases hX : (matchKeyword ['t', 'i', 't', 'l', 'e'] s.data).bind matchSep <;>
        simp_all
    unfold stripTitleMarker
    rw [h1', h2']
  by_cases hempty : s = ""
  · subst hempty
    exact absurd rfl hne
  · rw [cleanSessionTitle.eq_2, if_neg hempty, hstrip]
    show (if jsTrim s = "" then _ else _) = _
    rw [if_neg hne]

/-! ### Claim-supporting lemmas -/

theorem renderedCitations_sub (msg : Message) (showSources : Bool) :
    renderedCitations msg showSources = msg.citations ∨
      renderedCitations msg showSources = [] := by
  unfold renderedCitations
  split
  · exact Or.inl rfl
  · exact Or.inr rfl

theorem resolveMarkers_mem (retrieved : List Chunk)
    (markers : List (Nat × Nat)) (c : Citation)
    (hc : c ∈ resolveMarkers retrieved markers) :
    ∃ ch ∈ retrieved, ch.doc_id = c.doc_id ∧ ch.page = c.page := by
  unfold resolveMarkers at hc
  rw [List.mem_filterMap] at hc
  obtain ⟨m, _, hmap⟩ := hc
  cases hfind : retrieved.find? fun ch => ch.doc_id == m.1 && ch.page == m.2 with
  | none => rw [hfind] at hmap; simp at hmap
  | some ch =>
      rw [hfind] at hmap
      have hmap' :
          ({ doc_id := ch.doc_id, page := ch.page, snippet := ch.text } :
            Citation) = c := by
        simpa using hmap
      subst hmap'
      exact ⟨ch, List.mem_of_find?_eq_some hfind, rfl, rfl⟩

/-! ### Claim theorems -/

/-- Claim C1: for every assistant message the client renders exactly
the citations attached to the message (`message.citations`) and never
synthesizes additional ones; and, with the generator's citation
resolution modelled from the spec, every rendered citation's
(document id, page) pair corresponds to a chunk among the retrieved
set for that message. -/
theorem C1_citation_grounding (msg : Message) (showSources : Bool) :
    (renderedCitations msg showSources = msg.citations ∨
      renderedCitations msg showSources = []) ∧
    (∀ (retrieved : List Chunk) (markers : List (Nat × Nat))
      (content : String),
      ∀ c ∈ renderedCitations
        ⟨Role.assistant, content, resolveMarkers retrieved markers⟩
        showSources,
      ∃ ch ∈ retrieved, ch.doc_id = c.doc_id ∧ ch.page = c.page) := by
  refine ⟨renderedCitations_sub msg showSources, ?_⟩
  intro retrieved markers content c hc
  rcases renderedCitations_sub
      ⟨Role.assistant, content, resolveMarkers retrieved markers⟩
      showSources with heq | heq
  · rw [heq] at hc
    exact resolveMarkers_mem retrieved markers c hc
  · rw [heq] at hc
    simp at hc

/-- Witness for C1 at a concrete retrieval result and marker list. -/
theorem C1_citation_grounding_witness :
    ∃ ch ∈ [({ doc_id := 1, page := 2, text := "Paris" } : Chunk)],
      ch.doc_id = (⟨1, 2, "Paris"⟩ : Citation).doc_id ∧
        ch.page = (⟨1, 2, "Paris"⟩ : Citation).page :=
  (C1_citation_grounding
      ⟨Role.assistant, "ans", resolveMarkers [⟨1, 2, "Paris"⟩] [(1, 2)]⟩
      true).2
    [⟨1, 2, "Paris"⟩] [(1, 2)] "ans" ⟨1, 2, "Paris"⟩ (by decide)

/-- Claim C2: with the server modelled as a fixed chronological
message list served in offset windows from the end, the client's
load-older loop (offset = number already loaded, pages prepended,
stopping when offset plus page length reaches the total) reconstructs
the full history exactly — in order, with no duplicates and no
gaps — for any positive page size (the client uses 50). -/
theorem C2_pagination_reconstructs_history (history : List Message)
    (limit : Nat) (hlimit : 1 ≤ limit) :
    loadAll history limit = history :=
  loadAll_eq history limit hlimit

/-- Witness for C2: a three-message history loaded with page size 1
(three loop rounds). -/
theorem C2_pagination_reconstructs_history_witness :
    loadAll [⟨Role.user, "a", []⟩, ⟨Role.assistant, "b", []⟩,
        ⟨Role.user, "c", []⟩] 1 =
      [⟨Role.user, "a", []⟩, ⟨Role.assistant, "b", []⟩,
        ⟨Role.user, "c", []⟩] :=
  C2_pagination_reconstructs_history _ 1 (by decide)

/-- Counterexample for C3 as stated: on the topic-chat path a failed
send leaves the displayed history without the user's message — with
prior history empty and input `"Hi"`, the post-failure message list is
empty, so the user message appended for the call does not remain. -/
theorem C3_counterexample :
    (topicHandleSendMessage ⟨[], "Hi", false⟩ (some ⟨some 1, 1, none⟩)
        SendOutcome.failure []).1.messages = [] ∧
      (⟨Role.user, "Hi", []⟩ : Message) ∉
        (topicHandleSendMessage ⟨[], "Hi", false⟩ (some ⟨some 1, 1, none⟩)
          SendOutcome.failure []).1.messages := by
  decide

/-- Claim C3 (amended): on a failed send no assistant message is added
on either path; on the single-document chat path the user's optimistic
message remains appended, while on the topic-chat path the message
list is restored to its pre-call value (the optimistic user message is
removed). -/
theorem C3_failed_send_amended (st : SendState)
    (selectedSession : Option Session) (refetched : List Message)
    (h1 : jsTrim st.inputMessage ≠ "") (h2 : selectedSession ≠ none) :
    (chatHandleSendMessage st selectedSession
        SendOutcome.failure).1.messages =
      st.messages ++ [⟨Role.user, jsTrim st.inputMessage, []⟩] ∧
    (topicHandleSendMessage st selectedSession SendOutcome.failure
        refetched).1.messages = st.messages := by
  unfold chatHandleSendMessage topicHandleSendMessage
  rw [if_neg (by tauto), if_neg (by tauto)]
  exact ⟨rfl, rfl⟩

/-- Witness for C3 (amended) at a concrete state. -/
theorem C3_failed_send_amended_witness :
    (chatHandleSendMessage ⟨[], "Hi", false⟩ (some ⟨some 1, 1, none⟩)
        SendOutcome.failure).1.messages =
      [] ++ [⟨Role.user, jsTrim "Hi", []⟩] ∧
    (topicHandleSendMessage ⟨[], "Hi", false⟩ (some ⟨some 1, 1, none⟩)
        SendOutcome.failure []).1.messages = [] :=
  C3_failed_send_amended ⟨[], "Hi", false⟩ (some ⟨some 1, 1, none⟩) []
    (by decide) (by decide)

/-- Claim C4: for a scope with zero ready documents the (spec-modelled)
server-side `create_session` fails with a ScopeError and the session
store is unchanged; and in the topic chat, when the topic's document
list is empty, the create action issues no request and leaves the
session list, selection and messages untouched. -/
theorem C4_create_session_empty_scope :
    (∀ (scope : List DocInfo) (store : List Session) (fresh : Session),
      (scope.filter fun d => d.status = "ready").isEmpty = true →
      create_session scope store fresh = (Except.error "ScopeError", store)) ∧
    (∀ (st : TopicChatState) (response : Option Session),
      st.documents = [] → handleCreateSession st response = (st, 0)) := by
  constructor
  · intro scope store fresh h
    unfold create_session
    rw [if_pos h]
  · intro st response h
    unfold handleCreateSession
    rw [if_pos (by rw [h]; rfl)]

/-- Witness for C4: one processing (non-ready) document server-side,
and an empty client document list. -/
theorem C4_create_session_empty_scope_witness :
    create_session [⟨1, "Doc", "processing"⟩] [] ⟨some 5, 5, none⟩ =
      (Except.error "ScopeError", []) ∧
    handleCreateSession ⟨[], [], none, []⟩ (some ⟨some 5, 5, none⟩) =
      (⟨[], [], none, []⟩, 0) :=
  ⟨C4_create_session_empty_scope.1 _ _ _ (by decide),
    C4_create_session_empty_scope.2 _ _ rfl⟩

/-- Claim C5: a successful send on a selected session with non-blank
input extends the displayed history by exactly the trimmed user
message followed by the assistant message returned by the server, and
leaves every earlier message unchanged. -/
theorem C5_send_appends_two_messages (st : SendState)
    (selectedSession : Option Session) (m : Message)
    (h1 : jsTrim st.inputMessage ≠ "") (h2 : selectedSession ≠ none) :
    (chatHandleSendMessage st selectedSession
        (SendOutcome.success m)).1.messages =
      st.messages ++ [⟨Role.user, jsTrim st.inputMessage, []⟩, m] ∧
    (chatHandleSendMessage st selectedSession
        (SendOutcome.success m)).1.messages.take st.messages.length =
      st.messages := by
  have hmsgs : (chatHandleSendMessage st selectedSession
      (SendOutcome.success m)).1.messages =
      st.messages ++ [⟨Role.user, jsTrim st.inputMessage, []⟩, m] := by
    unfold chatHandleSendMessage
    rw [if_neg (by tauto)]
  refine ⟨hmsgs, ?_⟩
  rw [hmsgs, List.take_left]

/-- Witness for C5 at a concrete state and assistant reply. -/
theorem C5_send_appends_two_messages_witness :
    (chatHandleSendMessage ⟨[], " Hi ", false⟩ (some ⟨some 1, 1, none⟩)
        (SendOutcome.success ⟨Role.assistant, "Hello", []⟩)).1.messages =
      [] ++ [⟨Role.user, jsTrim " Hi ", []⟩,
        ⟨Role.assistant, "Hello", []⟩] ∧
    (chatHandleSendMessage ⟨[], " Hi ", false⟩ (some ⟨some 1, 1, none⟩)
        (SendOutcome.success ⟨Role.assistant, "Hello", []⟩)).1.messages.take
        ([] : List Message).length = [] :=
  C5_send_appends_two_messages ⟨[], " Hi ", false⟩ (some ⟨some 1, 1, none⟩)
    ⟨Role.assistant, "Hello", []⟩ (by decide) (by decide)

/-- Claim C6: `cleanSessionTitle` yields `"Untitled chat"` for an
absent or empty title; it removes one leading `judul`/`title` marker
(case-insensitive, followed by optional whitespace, `':'` or `'-'`,
and optional whitespace) and trims, falling back to `"Untitled chat"`
when the cleaned result is empty; and a title with no such marker is
returned trimmed but otherwise unchanged. -/
theorem C6_clean_session_title :
    (cleanSessionTitle none = "Untitled chat" ∧
      cleanSessionTitle (some "") = "Untitled chat") ∧
    (∀ (w ws1 : List Char) (sep : Char) (tail : List Char),
      (w.map Char.toLower = ['j', 'u', 'd', 'u', 'l'] ∨
        w.map Char.toLower = ['t', 'i', 't', 'l', 'e']) →
      (∀ c ∈ ws1, isSpace c = true) →
      (sep = ':' ∨ sep = '-') →
      cleanSessionTitle (some (String.mk (w ++ (ws1 ++ sep :: tail)))) =
        if jsTrimL tail = [] then "Untitled chat"
        else String.mk (jsTrimL tail)) ∧
    (∀ s : String, hasTitleMarker s = false → jsTrim s ≠ "" →
      cleanSessionTitle (some s) = jsTrim s) :=
  ⟨⟨rfl, rfl⟩, cleanSessionTitle_marker, cleanSessionTitle_no_marker⟩

/-- Witness for C6: a `Title:`-style marker is stripped, and an
unmarked title is only trimmed. -/
theorem C6_clean_session_title_witness :
    cleanSessionTitle (some "Title: Physics") = "Physics" ∧
    cleanSessionTitle (some " hello ") = jsTrim " hello " :=
  ⟨(C6_clean_session_title.2.1 ['T', 'i', 't', 'l', 'e'] [] ':'
      (' ' :: ['P', 'h', 'y', 's', 'i', 'c', 's'])
      (Or.inr (by decide)) (by intro c hc; simp at hc)
      (Or.inl rfl)).trans (by decide),
    C6_clean_session_title.2.2 " hello " (by decide) (by decide)⟩

/-- Claim C7: a rendered citation shows its own page number and
snippet; activating it opens the viewer at exactly the cited page
(`initialPage = citation.page`) and only when the cited document's
status is `ready`; for any other status the citation button is
disabled and a click is a no-op. -/
theorem C7_citation_click_opens_cited_page (c : Citation) (d : DocInfo) :
    ((citationRender c (some d) false).pageLabel = c.page ∧
      (citationRender c (some d) false).snippet = c.snippet) ∧
    (d.status = "ready" →
      citationHandleClick (some d) false = true ∧
      citationButtonDisabled (some d) = false ∧
      (citationRender c (some d) true).viewer = some ⟨c.page, d.title⟩) ∧
    (d.status ≠ "ready" →
      citationButtonDisabled (some d) = true ∧
      citationHandleClick (some d) false = false) := by
  refine ⟨⟨rfl, rfl⟩, ?_, ?_⟩
  · intro h
    refine ⟨?_, ?_, rfl⟩
    · simp [citationHandleClick, h]
    · unfold citationButtonDisabled
      simp [h]
  · intro h
    constructor
    · unfold citationButtonDisabled
      simp [h]
    · simp [citationHandleClick, h]

/-- Witness for C7: a ready document is clickable and opens at the
cited page; a processing document is disabled. -/
theorem C7_citation_click_opens_cited_page_witness :
    (citationHandleClick (some ⟨1, "Doc", "ready"⟩) false = true ∧
      citationButtonDisabled (some ⟨1, "Doc", "ready"⟩) = false ∧
      (citationRender ⟨1, 3, "snip"⟩ (some ⟨1, "Doc", "ready"⟩)
        true).viewer = some ⟨3, "Doc"⟩) ∧
    (citationButtonDisabled (some ⟨1, "Doc", "processing"⟩) = true ∧
      citationHandleClick (some ⟨1, "Doc", "processing"⟩) false = false) :=
  ⟨(C7_citation_click_opens_cited_page ⟨1, 3, "snip"⟩
      ⟨1, "Doc", "ready"⟩).2.1 rfl,
    (C7_citation_click_opens_cited_page ⟨1, 3, "snip"⟩
      ⟨1, "Doc", "processing"⟩).2.2 (by decide)⟩

/-- Claim C8: deleting a session is atomic for client state — a failed
delete restores the session list, selection and messages exactly; a
successful delete removes the session from the list, and clears the
selection and messages precisely when the deleted session was the
selected one. -/
theorem C8_delete_session_atomic (st : ChatState) (sid : Nat) :
    confirmDelete st sid false = st ∧
    (∀ s ∈ (confirmDelete st sid true).sessions, s.effId ≠ sid) ∧
    (∀ sel, st.selectedSession = some sel → sel.effId = sid →
      (confirmDelete st sid true).selectedSession = none ∧
      (confirmDelete st sid true).messages = []) ∧
    (∀ sel, st.selectedSession = some sel → sel.effId ≠ sid →
      (confirmDelete st sid true).selectedSession = st.selectedSession ∧
      (confirmDelete st sid true).messages = st.messages) := by
  refine ⟨rfl, ?_, ?_, ?_⟩
  · intro s hs
    have := List.of_mem_filter hs
    simpa using this
  · intro sel hsel heff
    unfold confirmDelete
    rw [hsel]
    simp [heff]
  · intro sel hsel heff
    unfold confirmDelete
    rw [hsel]
    simp [heff]

/-- Witness for C8: deleting the selected session clears selection and
messages on success. -/
theorem C8_delete_session_atomic_witness :
    (confirmDelete ⟨[⟨some 1, 1, none⟩], some ⟨some 1, 1, none⟩,
        [⟨Role.user, "q", []⟩]⟩ 1 true).selectedSession = none ∧
    (confirmDelete ⟨[⟨some 1, 1, none⟩], some ⟨some 1, 1, none⟩,
        [⟨Role.user, "q", []⟩]⟩ 1 true).messages = [] :=
  (C8_delete_session_atomic ⟨[⟨some 1, 1, none⟩], some ⟨some 1, 1, none⟩,
      [⟨Role.user, "q", []⟩]⟩ 1).2.2.1 ⟨some 1, 1, none⟩ rfl rfl

/-- Claim C9: when the input trims to the empty string or no session
is selected, submitting the send form is a no-op on both paths: no
request is issued and the message list, input text and loading flag
keep their previous values. -/
theorem C9_blank_or_unselected_send_noop (st : SendState)
    (selectedSession : Option Session) (outcome : SendOutcome)
    (refetched : List Message)
    (h : jsTrim st.inputMessage = "" ∨ selectedSession = none) :
    chatHandleSendMessage st selectedSession outcome = (st, 0) ∧
    topicHandleSendMessage st selectedSession outcome refetched =
      (st, 0) := by
  unfold chatHandleSendMessage topicHandleSendMessage
  rw [if_pos h, if_pos h]
  exact ⟨rfl, rfl⟩

/-- Witness for C9: whitespace-only input with a selected session. -/
theorem C9_blank_or_unselected_send_noop_witness :
    chatHandleSendMessage ⟨[], "   ", false⟩ (some ⟨some 1, 1, none⟩)
        SendOutcome.failure = (⟨[], "   ", false⟩, 0) ∧
    topicHandleSendMessage ⟨[], "   ", false⟩ (some ⟨some 1, 1, none⟩)
        SendOutcome.failure [] = (⟨[], "   ", false⟩, 0) :=
  C9_blank_or_unselected_send_noop ⟨[], "   ", false⟩
    (some ⟨some 1, 1, none⟩) SendOutcome.failure [] (Or.inl (by decide))

/-- Counterexample for C10 as stated: the empty input contains no
asterisk yet parses to the empty segment list, not to a single text
segment equal to the input. -/
theorem C10_counterexample :
    parseInlineSegments "" = [] ∧
      parseInlineSegments "" ≠ [Seg.text ""] := by
  have h : parseInlineSegments "" = [] := by
    unfold parseInlineSegments
    rw [show ("" : String).data = [] from rfl, scanSegs.eq_1]
    simp
  exact ⟨h, by rw [h]; simp⟩

/-- Claim C10 (amended): the segments returned by
`parseInlineSegments` cover the input in order and lose nothing but
the `**`/`*` markers of matched spans — re-rendering every segment
(bold as `**v**`, italic as `*v*`, text verbatim) and concatenating
recovers the input exactly; and a nonempty input containing no
asterisk parses to a single text segment equal to the input (the
empty input parses to the empty segment list). -/
theorem C10_segments_cover_input (s : String) :
    renderSegs (parseInlineSegments s) = s.data ∧
    (s ≠ "" → (∀ c ∈ s.data, c ≠ '*') →
      parseInlineSegments s = [Seg.text s]) := by
  constructor
  · unfold parseInlineSegments
    simpa using renderSegs_scanSegs s.data []
  · intro hne hstar
    unfold parseInlineSegments
    rw [scanSegs_no_star s.data hstar []]
    have hdata : s.data ≠ [] := by
      intro h
      exact hne (congrArg String.mk h)
    rw [if_neg (by simpa using hdata)]
    simp only [List.reverse_nil, List.nil_append]

/-- Witness for C10 (amended): a plain word parses to one text
segment. -/
theorem C10_segments_cover_input_witness :
    parseInlineSegments "hello" = [Seg.text "hello"] :=
  (C10_segments_cover_input "hello").2 (by decide) (by decide)

end EduVate
